import Mathlib

attribute [local semireducible] Rat.add Rat.mul Rat.inv Rat.sub

/-!
# Verification of the trading transaction engine (`src/services/GameService.js`)

A shallow embedding of the trade coordinator, pricing engine, progression
engine and achievement engine of the game server.  The relational store is
modelled as typed lists of rows; SQLite `BEGIN TRANSACTION` / `COMMIT` /
`ROLLBACK` is modelled by running the transaction body as a pure function
`GameState → Except String (α × GameState)`: a thrown error restores the
pre-transaction database state.  JavaScript numbers are modelled as `ℚ`
(exact decimal arithmetic), already-floored money amounts as `ℤ`, and SQL
`NULL` / JS `null` as `Option`.
-/

/-- One stock line of a merchant's embedded JSON inventory
(`merchant.inventory` entries used in `buyItem`). -/
structure StockLine where
  name : String
  category : String
  basePrice : ℚ
  grade : String
  requiredLicense : ℤ
  stock : ℤ
deriving DecidableEq

/-- A row of the `players` table (the columns `GameService` reads/writes). -/
structure Player where
  id : String
  userId : String
  money : ℤ
  trustPoints : ℤ
  currentLicense : ℤ
  maxInventorySize : ℤ
  locationLat : Option ℚ
  locationLng : Option ℚ
deriving DecidableEq

/-- A row of the `merchants` table, with its embedded JSON stock list. -/
structure Merchant where
  id : String
  district : String
  requiredLicense : ℤ
  inventory : List StockLine
  locationLat : Option ℚ
  locationLng : Option ℚ
deriving DecidableEq

/-- A row of the `inventory` table.  `buyItem` inserts rows without an
`item_id` value, so `itemId` is `none` for purchased rows. -/
structure InvItem where
  id : String
  playerId : String
  itemName : String
  itemCategory : String
  basePrice : ℚ
  currentPrice : ℤ
  itemGrade : String
  requiredLicense : ℤ
  itemId : Option String
deriving DecidableEq

/-- A row of the `trades` table.  `district`, `negotiationDiscount` and
`finalPrice` are not set by the `INSERT` statements in `GameService`, so
trade rows written by the engine carry the schema defaults
(`NULL` / `0` / `NULL`); they are read back by the achievement engine. -/
structure TradeRec where
  id : String
  sellerId : String
  buyerId : String
  merchantId : String
  itemName : String
  itemCategory : String
  price : ℤ
  tradeType : String
  locationLat : Option ℚ
  locationLng : Option ℚ
  district : Option String
  negotiationDiscount : ℚ
  finalPrice : Option ℤ
deriving DecidableEq

/-- A row of the `character_stats` table (columns used by the engine). -/
structure CharStats where
  playerId : String
  level : ℤ
  experience : ℤ
  strength : ℤ
  intelligence : ℤ
  charisma : ℤ
  luck : ℤ
  statPoints : ℤ
  skillPoints : ℤ
deriving DecidableEq

/-- Schema defaults of `character_stats`
(`level 1, experience 0, stats 10, points 0`). -/
def defaultCharStats (pid : String) : CharStats :=
  ⟨pid, 1, 0, 10, 10, 10, 10, 0, 0⟩

/-- A row of the `level_requirements` table. -/
structure LevelReq where
  level : ℤ
  requiredExp : ℤ
  statPointsReward : ℤ
  skillPointsReward : ℤ
deriving DecidableEq

/-- A row of the `achievements` catalog table. -/
structure Achievement where
  id : String
  name : String
  description : String
  category : String
  conditionType : String
  conditionValue : ℤ
  rewardType : String
  rewardValue : String
deriving DecidableEq

/-- A row of the `player_achievements` table. -/
structure PARow where
  id : String
  playerId : String
  achievementId : String
  progress : ℤ
  isCompleted : Bool
  completedAt : Option String
  claimed : Bool
deriving DecidableEq

/-- A row of the `player_merchant_relations` table (columns used by the
achievement engine). -/
structure MRelation where
  playerId : String
  friendshipPoints : ℤ
deriving DecidableEq

/-- The relational store, one list of rows per table read or written by the
trading core. -/
structure GameState where
  players : List Player
  merchants : List Merchant
  inventory : List InvItem
  trades : List TradeRec
  characterStats : List CharStats
  levelRequirements : List LevelReq
  achievements : List Achievement
  playerAchievements : List PARow
  merchantRelations : List MRelation
deriving DecidableEq

/-- Full service state: the process-local `activeTrades` map (modelled by its
key set, values are unused timestamps) together with the database. -/
structure ServiceState where
  activeTrades : List String
  db : GameState
deriving DecidableEq

/-! ## Pricing engine (`calculateCurrentPrice`, lines 169-213) -/

/-- The `districtMultipliers` table of `calculateCurrentPrice`
(unlisted districts default to `1.0`). -/
def districtMultiplier (d : String) : ℚ :=
  if d = "강남구" then 13/10
  else if d = "서초구" then 5/4
  else if d = "송파구" then 6/5
  else if d = "중구" then 23/20
  else if d = "종로구" then 11/10
  else if d = "용산구" then 11/10
  else if d = "마포구" then 21/20
  else if d = "성동구" then 1
  else if d = "광진구" then 19/20
  else if d = "동대문구" then 9/10
  else if d = "중랑구" then 17/20
  else 1

/-- The `gradeMultipliers` table of `calculateCurrentPrice`
(unknown grades default to `1.0`). -/
def gradeMultiplier (g : String) : ℚ :=
  if g = "common" then 1
  else if g = "uncommon" then 6/5
  else if g = "rare" then 3/2
  else if g = "epic" then 2
  else if g = "legendary" then 3
  else 1

/-- `calculateCurrentPrice(item, district)`.  The ambient effects are passed
explicitly: `hour` is `new Date().getHours()` and `rand` is the `Math.random()`
draw, so the random factor is `0.95 + rand * 0.1`.  Follows the source's
multiplier order: district, time of day, random factor, grade; the result is
`Math.floor`ed. -/
def calculateCurrentPrice (item : StockLine) (district : String)
    (hour : ℤ) (rand : ℚ) : ℤ :=
  let price := item.basePrice
  let price := price * districtMultiplier district
  let price :=
    if 9 ≤ hour ∧ hour ≤ 18 then price * (11/10)
    else if 19 ≤ hour ∧ hour ≤ 22 then price * (21/20)
    else price
  let price := price * (95/100 + rand * (1/10))
  let price := price * gradeMultiplier item.grade
  ⌊price⌋

/-! ## Sell pricing (`calculateSellPrice`, lines 459-475) -/

/-- The `districtBonuses` table of `calculateSellPrice` (default `0`). -/
def districtBonus (d : String) : ℚ :=
  if d = "강남구" then 1/10
  else if d = "서초구" then 2/25
  else if d = "송파구" then 1/20
  else if d = "중구" then 3/100
  else if d = "종로구" then 1/50
  else 0

/-- The effective sell rate of `calculateSellPrice`:
`min(0.7 + rand * 0.2 + districtBonus, 0.95)` where `rand` is the
`Math.random()` draw. -/
def sellFinalRate (rand : ℚ) (district : String) : ℚ :=
  let baseSellRate := 7/10 + rand * (2/10)
  let bonus := districtBonus district
  min (baseSellRate + bonus) (95/100)

/-- `calculateSellPrice(item, district)`: the floored product of the item's
recorded `current_price` and the clamped sell rate. -/
def calculateSellPrice (item : InvItem) (district : String) (rand : ℚ) : ℤ :=
  let purchasePrice := item.currentPrice
  ⌊(purchasePrice : ℚ) * sellFinalRate rand district⌋

/-! ## Geospatial utility (`calculateDistance`, lines 216-231) -/

/-- JavaScript truthiness test `!x` on a nullable coordinate: `null` /
`undefined` and the number `0` are falsy. -/
def jsFalsy : Option ℚ → Bool
  | none => true
  | some v => v == 0

/-- `calculateDistance(lat1, lng1, lat2, lng2)`.  The guard structure of the
source is translated exactly: if any coordinate is falsy the function returns
`Infinity` (modelled as `⊤ : WithTop ℚ`).  Otherwise it returns the haversine
value `R * c`; that expression is built from `Math.sin`/`Math.cos`/
`Math.atan2`/`Math.sqrt`, which have no executable rational form, so the
numeric core is abstracted as the parameter `hav` — every claim about this
function concerns only the guard and the threshold comparison, never the
trigonometric value itself. -/
def calculateDistance (hav : ℚ → ℚ → ℚ → ℚ → ℚ)
    (lat1 lng1 lat2 lng2 : Option ℚ) : WithTop ℚ :=
  if jsFalsy lat1 || jsFalsy lng1 || jsFalsy lat2 || jsFalsy lng2 then ⊤
  else ((hav (lat1.getD 0) (lng1.getD 0) (lat2.getD 0) (lng2.getD 0) : ℚ) : WithTop ℚ)

/-- The distance precondition used by both `buyItem` (line 87) and `sellItem`
(line 390): `distance > 0.5` aborts the trade.  `Infinity > 0.5` is true, so a
missing location always trips the guard. -/
def distanceTooFar (d : WithTop ℚ) : Bool :=
  decide (((1/2 : ℚ) : WithTop ℚ) < d)

/-! ## Error messages (literal strings thrown by the source) -/

def msgDupTrade : String := "이미 진행 중인 거래입니다."
def msgDupSell : String := "이미 진행 중인 판매입니다."
def msgPlayerNotFound : String := "플레이어를 찾을 수 없습니다."
def msgMerchantNotFound : String := "상인을 찾을 수 없습니다."
def msgLicense (required : ℤ) : String := toString required ++ "급 면허가 필요합니다."
def msgItemNotFound : String := "해당 아이템을 찾을 수 없습니다."
def msgOutOfStock : String := "재고가 부족합니다."
def msgInventoryFull : String := "인벤토리가 가득 찼습니다."
def msgNoMoney : String := "돈이 부족합니다."
def msgTooFar : String := "상인과 너무 멀리 떨어져 있습니다."

/-! ## Progression engine (`giveExperience`, lines 602-666) -/

/-- A `giveExperience` result record. -/
structure ExpReport where
  experienceGained : ℤ
  newExperience : ℤ
  leveledUp : Bool
  oldLevel : ℤ
  newLevel : ℤ
  statPointsGained : ℤ
  skillPointsGained : ℤ
deriving DecidableEq

/-- The level-up `while (true)` loop of `giveExperience`: look up the
`level_requirements` row for `currentLevel + 1`; stop if it is absent or the
experience total is below its requirement, otherwise advance one level and
accumulate the rewards.  The loop is unfolded on an explicit `fuel` bound so
that it stays structurally recursive; `levelLoopF_stable` below shows that
with `fuel` larger than the number of table rows above the current level the
bound is never reached, so this is exactly the source's unbounded loop. -/
def levelLoopF : ℕ → List LevelReq → ℤ → ℤ → ℤ → ℤ → ℤ × ℤ × ℤ
  | 0, _, _, currentLevel, sp, sk => (currentLevel, sp, sk)
  | Nat.succ fuel, reqs, newExp, currentLevel, sp, sk =>
    match reqs.find? (fun r => r.level == currentLevel + 1) with
    | none => (currentLevel, sp, sk)
    | some req =>
      if newExp < req.requiredExp then (currentLevel, sp, sk)
      else levelLoopF fuel reqs newExp (currentLevel + 1)
        (sp + req.statPointsReward) (sk + req.skillPointsReward)

/-- The tail of `giveExperience` once the `character_stats` row is in hand:
add the amount, resolve level-ups, and persist experience, level and point
totals in one `UPDATE`. -/
def giveExperienceWith (playerId : String) (expAmount : ℤ) (db : GameState)
    (characterStats : CharStats) : ExpReport × GameState :=
  let newExp := characterStats.experience + expAmount
  let r := levelLoopF (db.levelRequirements.length + 1) db.levelRequirements
    newExp characterStats.level 0 0
  let db2 := {db with characterStats := db.characterStats.map fun c =>
    if c.playerId == playerId then
      {c with experience := newExp, level := r.1,
              statPoints := c.statPoints + r.2.1,
              skillPoints := c.skillPoints + r.2.2}
    else c}
  (⟨expAmount, newExp, decide (characterStats.level < r.1),
    characterStats.level, r.1, r.2.1, r.2.2⟩, db2)

/-- `giveExperience(playerId, expAmount)`: fetch the `character_stats` row,
lazily inserting the schema-default row when absent, then apply the grant. -/
def giveExperience (playerId : String) (expAmount : ℤ) (db : GameState) :
    ExpReport × GameState :=
  match db.characterStats.find? (fun c => c.playerId == playerId) with
  | some c => giveExperienceWith playerId expAmount db c
  | none => giveExperienceWith playerId expAmount
      {db with characterStats := db.characterStats ++ [defaultCharStats playerId]}
      (defaultCharStats playerId)

/-! ## Achievement engine (`checkAchievements`, lines 881-1036) -/

/-- A newly-completed achievement summary returned by `checkAchievements`. -/
structure NewAch where
  id : String
  name : String
  description : String
  category : String
  rewardType : String
  rewardValue : String
deriving DecidableEq

/-- The `WHERE player_id = ? AND achievement_id = ?` row filter on
`player_achievements`. -/
def paMatch (playerId achievementId : String) (r : PARow) : Bool :=
  r.playerId == playerId && r.achievementId == achievementId

/-- JavaScript `x || d` on a nullable integer (`null`, `undefined` and `0`
are falsy). -/
def jsOrInt (x : Option ℤ) (d : ℤ) : ℤ :=
  match x with
  | none => d
  | some v => if v = 0 then d else v

/-- `calculateAchievementProgress(playerId, achievement)`: one aggregate
query per `condition_type`, recomputed from the authoritative tables.
Unknown condition types (and the error fallback) yield `0`. -/
def calculateAchievementProgress (db : GameState) (playerId : String)
    (a : Achievement) : ℤ :=
  if a.conditionType = "trade_count" then
    ((db.trades.filter fun t =>
        t.sellerId == playerId || t.buyerId == playerId).length : ℤ)
  else if a.conditionType = "money_earned" then
    ((db.trades.filter fun t =>
        t.sellerId == playerId && t.tradeType == "sell").filterMap
      fun t => t.finalPrice).sum
  else if a.conditionType = "level_reached" then
    jsOrInt ((db.characterStats.find? fun c => c.playerId == playerId).map
      fun c => c.level) 1
  else if a.conditionType = "stat_total" then
    jsOrInt ((db.characterStats.find? fun c => c.playerId == playerId).map
      fun c => c.strength + c.intelligence + c.charisma + c.luck) 40
  else if a.conditionType = "unique_items" then
    ((((db.inventory.filter fun r => r.playerId == playerId).filterMap
      fun r => r.itemId).dedup).length : ℤ)
  else if a.conditionType = "districts_visited" then
    ((((db.trades.filter fun t =>
        t.sellerId == playerId || t.buyerId == playerId).filterMap
      fun t => t.district).dedup).length : ℤ)
  else if a.conditionType = "merchant_friendship" then
    ((db.merchantRelations.filter fun r =>
        r.playerId == playerId && 200 ≤ r.friendshipPoints).length : ℤ)
  else if a.conditionType = "successful_negotiations" then
    (((db.trades.filter fun t =>
        (t.sellerId == playerId || t.buyerId == playerId)
          && 0 < t.negotiationDiscount).length : ℤ)).fdiv 2
  else 0

/-- The body of the `for (const achievement of achievements)` loop: skip when
a completed row exists; otherwise recompute progress, upsert when it grew,
and report the achievement when it newly crosses its target. -/
def processAchievement (db : GameState) (playerId now : String)
    (pa : List PARow) (a : Achievement) : List PARow × Option NewAch :=
  if (pa.find? fun r => paMatch playerId a.id r && r.isCompleted).isSome then
    (pa, none)
  else
    let playerAchievement := pa.find? (paMatch playerId a.id)
    let currentProgress := calculateAchievementProgress db playerId a
    let needsUpdate := playerAchievement.isNone
      || decide ((playerAchievement.map fun r => r.progress).getD 0 < currentProgress)
    if needsUpdate then
      let isCompleted := decide (a.conditionValue ≤ currentProgress)
      match playerAchievement with
      | none =>
        let row : PARow := ⟨playerId ++ "_" ++ a.id, playerId, a.id,
          currentProgress, isCompleted,
          if isCompleted then some now else none, false⟩
        (pa ++ [row],
          if isCompleted then
            some ⟨a.id, a.name, a.description, a.category, a.rewardType, a.rewardValue⟩
          else none)
      | some old =>
        let pa2 := pa.map fun r =>
          if paMatch playerId a.id r then
            {r with progress := currentProgress, isCompleted := isCompleted,
                    completedAt := if isCompleted then some now else old.completedAt}
          else r
        (pa2,
          if isCompleted && !old.isCompleted then
            some ⟨a.id, a.name, a.description, a.category, a.rewardType, a.rewardValue⟩
          else none)
    else (pa, none)

/-- Sequential traversal of the achievement catalog, threading the
`player_achievements` table through each iteration. -/
def checkLoop (db : GameState) (playerId now : String) :
    List Achievement → List PARow → List PARow × List NewAch
  | [], pa => (pa, [])
  | a :: rest, pa =>
    let r := processAchievement db playerId now pa a
    let rr := checkLoop db playerId now rest r.1
    (rr.1, match r.2 with | some x => x :: rr.2 | none => rr.2)

/-- `checkAchievements(playerId)`: run the loop over the whole catalog and
persist the new `player_achievements` table; returns the newly-completed
summaries.  `now` is the `new Date().toISOString()` completion timestamp. -/
def checkAchievements (playerId now : String) (db : GameState) :
    List NewAch × GameState :=
  let r := checkLoop db playerId now db.achievements db.playerAchievements
  (r.2, {db with playerAchievements := r.1})

/-! ## Trade coordinator (`buyItem` lines 11-166, `sellItem` lines 341-456) -/

/-- The concurrency-guard key of `buyItem` (line 12):
`` `${userId}-${merchantId}-${itemName}` ``. -/
def buyTradeKey (userId merchantId itemName : String) : String :=
  userId ++ "-" ++ merchantId ++ "-" ++ itemName

/-- The concurrency-guard key of `sellItem` (line 342):
`` `sell-${userId}-${itemId}` `` — note that the merchant id does not occur. -/
def sellTradeKey (userId itemId : String) : String :=
  "sell-" ++ userId ++ "-" ++ itemId

/-- The operation kind of a trade request. -/
inductive TradeKind where
  | buy
  | sell
deriving DecidableEq

/-- The concurrency-guard key as a function of the four request components
named by the specification: actor id, counterparty (merchant) id, item
identity, operation kind.  Dispatches to the two key builders actually used
by the flows; for a sell the item identity is the inventory item id. -/
def tradeKeyOf (actorId merchantId itemIdent : String) : TradeKind → String
  | TradeKind.buy => buyTradeKey actorId merchantId itemIdent
  | TradeKind.sell => sellTradeKey actorId itemIdent

/-- Ambient effects of one trade invocation, passed explicitly: the wall
clock hour, the `Math.random()` draws of the two pricing functions, the
abstracted haversine core, the generated UUIDs and the completion
timestamp used by the achievement engine. -/
structure TradeEnv where
  hour : ℤ
  rand : ℚ
  sellRand : ℚ
  hav : ℚ → ℚ → ℚ → ℚ → ℚ
  invId : String
  tradeId : String
  now : String

/-- The purchased-item summary in a successful `buyItem` response. -/
structure PurchasedItem where
  id : String
  name : String
  category : String
  purchasePrice : ℤ
  grade : String
deriving DecidableEq

/-- The `data` payload of a successful `buyItem` response. -/
structure BuyData where
  newMoney : ℤ
  newTrustPoints : ℤ
  experienceGained : ℤ
  purchasedItem : PurchasedItem
  tradeId : String
deriving DecidableEq

/-- A `buyItem` result: `{success, error?, data?}`. -/
structure BuyResult where
  success : Bool
  error : Option String
  data : Option BuyData
deriving DecidableEq

/-- `{success: false, error: msg}`. -/
def buyFailure (msg : String) : BuyResult := ⟨false, some msg, none⟩

/-- The JSON list mutation of lines 110-114: `inventory.find(...)` returned
the first line with this name; its `stock` is decremented in place and the
whole list is re-serialized. -/
def decStock : List StockLine → String → List StockLine
  | [], _ => []
  | i :: rest, itemName =>
    if i.name == itemName then {i with stock := i.stock - 1} :: rest
    else i :: decStock rest itemName

/-- The transaction body of `buyItem` (lines 25-154): the precondition
chain in source order, then the atomic mutation block.  A thrown error is
`Except.error`; the caller rolls the database back. -/
def buyBody (env : TradeEnv) (userId merchantId itemName : String)
    (db : GameState) : Except String (BuyData × GameState) :=
  match db.players.find? (fun p => p.userId == userId) with
  | none => Except.error msgPlayerNotFound
  | some player =>
    match db.merchants.find? (fun m => m.id == merchantId) with
    | none => Except.error msgMerchantNotFound
    | some merchant =>
      if player.currentLicense < merchant.requiredLicense then
        Except.error (msgLicense merchant.requiredLicense)
      else
        match merchant.inventory.find? (fun i => i.name == itemName) with
        | none => Except.error msgItemNotFound
        | some item =>
          if item.stock ≤ 0 then Except.error msgOutOfStock
          else if player.maxInventorySize ≤
              ((db.inventory.filter fun r => r.playerId == player.id).length : ℤ) then
            Except.error msgInventoryFull
          else
            let currentPrice := calculateCurrentPrice item merchant.district env.hour env.rand
            if player.money < currentPrice then Except.error msgNoMoney
            else
              let dist := calculateDistance env.hav player.locationLat player.locationLng
                merchant.locationLat merchant.locationLng
              if distanceTooFar dist then Except.error msgTooFar
              else
                let db1 := {db with players := db.players.map (fun (p : Player) =>
                  if p.id == player.id then
                    {p with money := p.money - currentPrice,
                            trustPoints := p.trustPoints + 1}
                  else p)}
                let newRow : InvItem := ⟨env.invId, player.id, item.name, item.category,
                  item.basePrice, currentPrice, item.grade, item.requiredLicense, none⟩
                let db2 := {db1 with inventory := db1.inventory ++ [newRow]}
                let newList := decStock merchant.inventory itemName
                let db3 := {db2 with merchants := db2.merchants.map (fun (m : Merchant) =>
                  if m.id == merchantId then {m with inventory := newList} else m)}
                let tradeRow : TradeRec := ⟨env.tradeId, merchantId, player.id, merchantId,
                  item.name, item.category, currentPrice, "buy",
                  player.locationLat, player.locationLng, none, 0, none⟩
                let db4 := {db3 with trades := db3.trades ++ [tradeRow]}
                let expGained := currentPrice.fdiv 1000 + 5
                let db5 := (giveExperience player.id expGained db4).2
                let db6 := (checkAchievements player.id env.now db5).2
                Except.ok (⟨player.money - currentPrice, player.trustPoints + 1, expGained,
                  ⟨env.invId, item.name, item.category, currentPrice, item.grade⟩,
                  env.tradeId⟩, db6)

/-- `buyItem(userId, merchantId, itemName)`: the duplicate-trade guard around
the transaction body.  On the duplicate path the key is left untouched (it
belongs to the in-flight invocation); otherwise the key is set, the body
runs, a failure rolls the database back, and the `finally` clause deletes
the key on both exits. -/
def buyItem (env : TradeEnv) (userId merchantId itemName : String)
    (st : ServiceState) : BuyResult × ServiceState :=
  let tradeKey := buyTradeKey userId merchantId itemName
  if st.activeTrades.contains tradeKey then (buyFailure msgDupTrade, st)
  else
    let active1 := tradeKey :: st.activeTrades
    match buyBody env userId merchantId itemName st.db with
    | Except.ok r => (⟨true, none, some r.1⟩, ⟨active1.erase tradeKey, r.2⟩)
    | Except.error msg => (buyFailure msg, ⟨active1.erase tradeKey, st.db⟩)

/-- The sold-item summary in a successful `sellItem` response. -/
structure SoldItem where
  name : String
  category : String
  sellPrice : ℤ
deriving DecidableEq

/-- The `data` payload of a successful `sellItem` response. -/
structure SellData where
  newMoney : ℤ
  newTrustPoints : ℤ
  experienceGained : ℤ
  soldItem : SoldItem
  tradeId : String
deriving DecidableEq

/-- A `sellItem` result. -/
structure SellResult where
  success : Bool
  error : Option String
  data : Option SellData
deriving DecidableEq

/-- `{success: false, error: msg}`. -/
def sellFailure (msg : String) : SellResult := ⟨false, some msg, none⟩

/-- The transaction body of `sellItem` (lines 354-445): resolve player,
owned inventory item, merchant; distance check; then the atomic mutation
block (credit money and trust, delete the row, record the trade, grant
experience, run achievements). -/
def sellBody (env : TradeEnv) (userId itemId merchantId : String)
    (db : GameState) : Except String (SellData × GameState) :=
  match db.players.find? (fun p => p.userId == userId) with
  | none => Except.error msgPlayerNotFound
  | some player =>
    match db.inventory.find? (fun i => i.id == itemId && i.playerId == player.id) with
    | none => Except.error msgItemNotFound
    | some item =>
      match db.merchants.find? (fun m => m.id == merchantId) with
      | none => Except.error msgMerchantNotFound
      | some merchant =>
        let dist := calculateDistance env.hav player.locationLat player.locationLng
          merchant.locationLat merchant.locationLng
        if distanceTooFar dist then Except.error msgTooFar
        else
          let sellPrice := calculateSellPrice item merchant.district env.sellRand
          let db1 := {db with players := db.players.map (fun (p : Player) =>
            if p.id == player.id then
              {p with money := p.money + sellPrice,
                      trustPoints := p.trustPoints + 2}
            else p)}
          let db2 := {db1 with inventory := db1.inventory.filter fun i => !(i.id == itemId)}
          let tradeRow : TradeRec := ⟨env.tradeId, player.id, merchantId, merchantId,
            item.itemName, item.itemCategory, sellPrice, "sell",
            player.locationLat, player.locationLng, none, 0, none⟩
          let db3 := {db2 with trades := db2.trades ++ [tradeRow]}
          let expGained := sellPrice.fdiv 800 + 8
          let db4 := (giveExperience player.id expGained db3).2
          let db5 := (checkAchievements player.id env.now db4).2
          Except.ok (⟨player.money + sellPrice, player.trustPoints + 2, expGained,
            ⟨item.itemName, item.itemCategory, sellPrice⟩, env.tradeId⟩, db5)

/-- `sellItem(userId, itemId, merchantId)`: the duplicate-sale guard around
the transaction body, with the same acquire/rollback/release discipline as
`buyItem`. -/
def sellItem (env : TradeEnv) (userId itemId merchantId : String)
    (st : ServiceState) : SellResult × ServiceState :=
  let tradeKey := sellTradeKey userId itemId
  if st.activeTrades.contains tradeKey then (sellFailure msgDupSell, st)
  else
    let active1 := tradeKey :: st.activeTrades
    match sellBody env userId itemId merchantId st.db with
    | Except.ok r => (⟨true, none, some r.1⟩, ⟨active1.erase tradeKey, r.2⟩)
    | Except.error msg => (sellFailure msg, ⟨active1.erase tradeKey, st.db⟩)

/-! ## Transport layer (`POST /trade/buy`, `src/routes/game.js`) -/

/-- JavaScript truthiness of a nullable string (`null`/`undefined` and the
empty string are falsy). -/
def jsFalsyStr : Option String → Bool
  | none => true
  | some s => s == ""

/-- An HTTP response of the buy route: status code plus the JSON body
fields the handler writes. -/
structure RouteResponse where
  status : ℕ
  success : Bool
  error : Option String
  data : Option BuyData
deriving DecidableEq

def msgBuyParams : String := "상인 ID와 아이템 이름이 필요합니다."
def msgBuyQuantity : String := "구매 수량은 1-10개 사이여야 합니다."

/-- The `POST /trade/buy` handler: validates presence of `merchantId` and
`itemName` and the `quantity` range 1-10, then calls
`gameService.buyItem(userId, merchantId, itemName, quantity)` — whose
signature ignores the fourth argument. -/
def tradeBuyFinish (r : BuyResult × ServiceState) : RouteResponse × ServiceState :=
  if r.1.success then (⟨200, true, none, r.1.data⟩, r.2)
  else (⟨400, false, r.1.error, none⟩, r.2)

def tradeBuyRoute (env : TradeEnv) (userId : String)
    (merchantId itemName : Option String) (quantity : ℤ)
    (st : ServiceState) : RouteResponse × ServiceState :=
  if jsFalsyStr merchantId || jsFalsyStr itemName then
    (⟨400, false, some msgBuyParams, none⟩, st)
  else if quantity < 1 || 10 < quantity then
    (⟨400, false, some msgBuyQuantity, none⟩, st)
  else
    tradeBuyFinish (buyItem env userId (merchantId.getD "") (itemName.getD "") st)

/-! ## Infrastructure lemmas -/

theorem length_filter_le_mono {α : Type} (p q : α → Bool) (l : List α)
    (h : ∀ x, q x = true → p x = true) :
    (l.filter q).length ≤ (l.filter p).length := by
  induction l with
  | nil => simp
  | cons x xs ih =>
    rw [List.filter_cons, List.filter_cons]
    cases hq : q x
    · cases hp : p x
      · exact ih
      · simpa using Nat.le_succ_of_le ih
    · rw [h x hq]
      simpa using Nat.succ_le_succ ih

theorem length_filter_lt {α : Type} (p q : α → Bool) (l : List α)
    (h : ∀ x, q x = true → p x = true) (a : α) (ha : a ∈ l)
    (hpa : p a = true) (hqa : q a = false) :
    (l.filter q).length < (l.filter p).length := by
  induction l with
  | nil => cases ha
  | cons x xs ih =>
    rw [List.filter_cons, List.filter_cons]
    rcases List.mem_cons.mp ha with h1 | h1
    · subst h1
      rw [hpa, hqa]
      simpa using Nat.lt_succ_of_le (length_filter_le_mono p q xs h)
    · cases hq : q x
      · cases hp : p x
        · simpa using ih h1
        · simpa using Nat.lt_succ_of_lt (ih h1)
      · rw [h x hq]
        simpa using Nat.succ_lt_succ (ih h1)

/-- The fuel bound of `levelLoopF` is inert: any two fuel values strictly
above the number of `level_requirements` rows beyond the current level give
the same result, so `levelLoopF` with fuel `reqs.length + 1` is exactly the
source's unbounded `while (true)` loop. -/
theorem levelLoopF_stable (reqs : List LevelReq) (newExp : ℤ) :
    ∀ (fuel fuel' : ℕ) (cur sp sk : ℤ),
      (reqs.filter fun r => decide (cur < r.level)).length < fuel →
      (reqs.filter fun r => decide (cur < r.level)).length < fuel' →
      levelLoopF fuel reqs newExp cur sp sk = levelLoopF fuel' reqs newExp cur sp sk := by
  intro fuel
  induction fuel with
  | zero => intro fuel' cur sp sk hc; omega
  | succ fuel ih =>
    intro fuel' cur sp sk hc hc'
    cases fuel' with
    | zero => omega
    | succ fuel'' =>
      show levelLoopF (fuel + 1) reqs newExp cur sp sk
        = levelLoopF (fuel'' + 1) reqs newExp cur sp sk
      rw [levelLoopF, levelLoopF]
      cases hf : reqs.find? (fun r => r.level == cur + 1) with
      | none => rfl
      | some req =>
        simp only []
        by_cases he : newExp < req.requiredExp
        · rw [if_pos he, if_pos he]
        · rw [if_neg he, if_neg he]
          have hmem := List.mem_of_find?_eq_some hf
          have hlvl : req.level = cur + 1 := by
            have := List.find?_some hf
            simpa using this
          have hdec : ((reqs.filter fun r => decide (cur + 1 < r.level)).length <
              (reqs.filter fun r => decide (cur < r.level)).length) := by
            refine length_filter_lt _ _ reqs ?_ req hmem ?_ ?_
            · intro x hx
              simp only [decide_eq_true_eq] at hx ⊢
              omega
            · simp [hlvl]
            · simp [hlvl]
          exact ih fuel'' (cur + 1) (sp + req.statPointsReward)
            (sk + req.skillPointsReward) (by omega) (by omega)

/-! ## Fixtures (concrete rows used by example theorems and witnesses) -/

/-- A merchant stock line used by concrete scenarios. -/
def appleLine : StockLine := ⟨"apple", "food", 100, "common", 1, 3⟩

/-- A player used by concrete scenarios. -/
def alice : Player := ⟨"p1", "u1", 10000, 5, 1, 5, some 37, some 127⟩

/-- A merchant used by concrete scenarios (district without price modifier). -/
def groceryMerchant : Merchant := ⟨"m1", "성동구", 1, [appleLine], some 37, some 127⟩

/-- A base database: one player, one merchant, default character stats,
no achievements and no level thresholds. -/
def baseDb : GameState :=
  ⟨[alice], [groceryMerchant], [], [], [defaultCharStats "p1"], [], [], [], []⟩

/-- A base service state with no trade in flight. -/
def baseSt : ServiceState := ⟨[], baseDb⟩

/-- A trade environment: midnight (no time multiplier), both random draws at
`1/2` (random factors `1.0` and `0.8`), haversine core fixed at `0` km. -/
def baseEnv : TradeEnv := ⟨0, 1/2, 1/2, fun _ _ _ _ => 0, "inv1", "tr1", "t0"⟩

/-! ## Claim theorems -/

/-- The item of the C8 pricing scenario: base price 5000, grade `common`. -/
def luxuryWatch : StockLine := ⟨"명품시계", "luxury", 5000, "common", 1, 10⟩

/-- C8: the buy quote multiplies base price by the district, time-of-day,
grade and random multipliers and floors the result: base 5000, district
강남구 (×1.3), hour 14 (×1.10), grade common (×1.0) and `Math.random() = 1/2`
(random factor `0.95 + 0.5·0.1 = 1.0`) quote exactly
`⌊5000 × 1.3 × 1.1⌋ = 7150`. -/
theorem calculateCurrentPrice_gangnam_example :
    calculateCurrentPrice luxuryWatch "강남구" 14 (1/2) = 7150
      ∧ (95/100 : ℚ) + (1/2) * (1/10) = 1 := by
  constructor
  · decide
  · decide

/-- The C6 progression scenario database: a level-1 player with 0 experience
and the two catalog thresholds `level 2 ↦ 100 exp / 2 stat / 1 skill`,
`level 3 ↦ 250 exp / 2 stat / 1 skill`. -/
def c6Db : GameState :=
  ⟨[], [], [], [], [defaultCharStats "p1"], [⟨2, 100, 2, 1⟩, ⟨3, 250, 2, 1⟩], [], [], []⟩

/-- C6: granting 260 experience to a level-1 player with 0 experience under
thresholds 100 (level 2, +2 stat/+1 skill) and 250 (level 3, +2 stat/+1
skill) crosses both levels in one call: the report says level 1 → 3 with
+4 stat points and +2 skill points, and the single persisted
`character_stats` row carries level 3, experience 260 and the summed point
totals. -/
theorem giveExperience_multilevel_example :
    (giveExperience "p1" 260 c6Db).1 = ⟨260, 260, true, 1, 3, 4, 2⟩
      ∧ (giveExperience "p1" 260 c6Db).2.characterStats
          = [⟨"p1", 3, 260, 10, 10, 10, 10, 4, 2⟩] := by
  constructor
  · decide
  · decide

/-- C4: for every inventory item with non-negative recorded current price,
every district and every value of the random sell-rate draw, the effective
sell rate is clamped to at most `0.95` and the computed sell price never
exceeds the recorded purchase/current price. -/
theorem calculateSellPrice_le_purchase (item : InvItem) (district : String)
    (rand : ℚ) (h : 0 ≤ item.currentPrice) :
    sellFinalRate rand district ≤ 95/100
      ∧ calculateSellPrice item district rand ≤ item.currentPrice := by
  refine ⟨min_le_right _ _, ?_⟩
  show ⌊(item.currentPrice : ℚ) * sellFinalRate rand district⌋ ≤ item.currentPrice
  have hrate : sellFinalRate rand district ≤ 1 :=
    le_trans (min_le_right _ _) (by norm_num)
  have hcast : (0 : ℚ) ≤ (item.currentPrice : ℚ) := by exact_mod_cast h
  have hmul : (item.currentPrice : ℚ) * sellFinalRate rand district
      ≤ (item.currentPrice : ℚ) := by
    calc (item.currentPrice : ℚ) * sellFinalRate rand district
        ≤ (item.currentPrice : ℚ) * 1 := mul_le_mul_of_nonneg_left hrate hcast
      _ = (item.currentPrice : ℚ) := mul_one _
  calc ⌊(item.currentPrice : ℚ) * sellFinalRate rand district⌋
      ≤ ⌊((item.currentPrice : ℤ) : ℚ)⌋ := Int.floor_le_floor hmul
    _ = item.currentPrice := Int.floor_intCast _

/-- An inventory item instance for the C4 witness. -/
def c4Item : InvItem := ⟨"i1", "p1", "apple", "food", 100, 100, "common", 1, none⟩

/-- Witness for C4 at a concrete item (current price 100), district and
random draw. -/
theorem calculateSellPrice_le_purchase_witness :
    sellFinalRate (1/2) "강남구" ≤ 95/100
      ∧ calculateSellPrice c4Item "강남구" (1/2) ≤ c4Item.currentPrice :=
  calculateSellPrice_le_purchase c4Item "강남구" (1/2) (by decide)

/-! ## Concurrency guard lemmas -/

/-- A duplicate buy key short-circuits `buyItem` with the
duplicate-trade error and no state change. -/
theorem buyItem_dup (env : TradeEnv) (u m i : String) (st : ServiceState)
    (h : st.activeTrades.contains (buyTradeKey u m i) = true) :
    buyItem env u m i st = (buyFailure msgDupTrade, st) := by
  unfold buyItem
  rw [if_pos h]

/-- A duplicate sell key short-circuits `sellItem` with the
duplicate-sale error and no state change. -/
theorem sellItem_dup (env : TradeEnv) (u iid m : String) (st : ServiceState)
    (h : st.activeTrades.contains (sellTradeKey u iid) = true) :
    sellItem env u iid m st = (sellFailure msgDupSell, st) := by
  unfold sellItem
  rw [if_pos h]

/-- When the buy key is not in flight, `buyItem` restores `activeTrades`
exactly (insert then erase) on both the success and the rollback exit. -/
theorem buyItem_releases (env : TradeEnv) (u m i : String) (st : ServiceState)
    (h : st.activeTrades.contains (buyTradeKey u m i) = false) :
    ((buyItem env u m i st).2).activeTrades = st.activeTrades := by
  unfold buyItem
  simp only [h, Bool.false_eq_true, if_false]
  cases buyBody env u m i st.db <;> simp

/-- When the sell key is not in flight, `sellItem` restores `activeTrades`
exactly on both exits. -/
theorem sellItem_releases (env : TradeEnv) (u iid m : String) (st : ServiceState)
    (h : st.activeTrades.contains (sellTradeKey u iid) = false) :
    ((sellItem env u iid m st).2).activeTrades = st.activeTrades := by
  unfold sellItem
  simp only [h, Bool.false_eq_true, if_false]
  cases sellBody env u iid m st.db <;> simp

/-- C2: for both flows, a key already in flight makes the operation fail
immediately with the duplicate-trade error and no state change at all; and
when the key was free, every exit path (success or rollback) leaves
`activeTrades` exactly as it was — in particular the operation's own key is
not held after it returns. -/
theorem trade_guard_dup_and_release (env : TradeEnv) (u m i iid : String)
    (st : ServiceState) :
    (st.activeTrades.contains (buyTradeKey u m i) = true →
      buyItem env u m i st = (buyFailure msgDupTrade, st))
    ∧ (st.activeTrades.contains (buyTradeKey u m i) = false →
      ((buyItem env u m i st).2).activeTrades = st.activeTrades
        ∧ ((buyItem env u m i st).2).activeTrades.contains (buyTradeKey u m i) = false)
    ∧ (st.activeTrades.contains (sellTradeKey u iid) = true →
      sellItem env u iid m st = (sellFailure msgDupSell, st))
    ∧ (st.activeTrades.contains (sellTradeKey u iid) = false →
      ((sellItem env u iid m st).2).activeTrades = st.activeTrades
        ∧ ((sellItem env u iid m st).2).activeTrades.contains (sellTradeKey u iid) = false) := by
  refine ⟨buyItem_dup env u m i st, ?_, sellItem_dup env u iid m st, ?_⟩
  · intro h
    have hr := buyItem_releases env u m i st h
    exact ⟨hr, by rw [hr]; exact h⟩
  · intro h
    have hr := sellItem_releases env u iid m st h
    exact ⟨hr, by rw [hr]; exact h⟩

/-- A service state whose `activeTrades` map already holds both example
keys (a buy of `apple` and a sell of item `i1` by user `u1`). -/
def dupSt : ServiceState :=
  ⟨[buyTradeKey "u1" "m1" "apple", sellTradeKey "u1" "i1"], baseDb⟩

/-- Witness for C2: at the concrete in-flight state the duplicate paths
reject with no state change, and at the free state the key set is restored. -/
theorem trade_guard_dup_and_release_witness :
    buyItem baseEnv "u1" "m1" "apple" dupSt = (buyFailure msgDupTrade, dupSt)
    ∧ sellItem baseEnv "u1" "i1" "m1" dupSt = (sellFailure msgDupSell, dupSt)
    ∧ ((buyItem baseEnv "u1" "m1" "apple" baseSt).2).activeTrades = baseSt.activeTrades
    ∧ ((sellItem baseEnv "u1" "i1" "m1" baseSt).2).activeTrades = baseSt.activeTrades :=
  ⟨(trade_guard_dup_and_release baseEnv "u1" "m1" "apple" "i1" dupSt).1 (by decide),
   (trade_guard_dup_and_release baseEnv "u1" "m1" "apple" "i1" dupSt).2.2.1 (by decide),
   ((trade_guard_dup_and_release baseEnv "u1" "m1" "apple" "i1" baseSt).2.1 (by decide)).1,
   ((trade_guard_dup_and_release baseEnv "u1" "m1" "apple" "i1" baseSt).2.2.2 (by decide)).1⟩

/-- A service state holding the sell key of user `u`, item `i`. -/
def sellKeySt : ServiceState := ⟨[sellTradeKey "u" "i"], baseDb⟩

/-- C3 counterexample: the sell trade key omits the counterparty — two sell
requests that differ only in the merchant id produce the same key, and both
trip the same in-flight guard entry, refuting "two requests differing in any
one of those four components never share a key". -/
theorem tradeKey_merchant_collision :
    tradeKeyOf "u" "m1" "i" TradeKind.sell = tradeKeyOf "u" "m2" "i" TradeKind.sell
    ∧ ("m1" : String) ≠ "m2"
    ∧ (sellItem baseEnv "u" "i" "m1" sellKeySt).1 = sellFailure msgDupSell
    ∧ (sellItem baseEnv "u" "i" "m2" sellKeySt).1 = sellFailure msgDupSell := by
  refine ⟨rfl, by decide, ?_, ?_⟩ <;> decide

/-- C3 amended: the guard keys are deterministic, the buy key is built from
(actor, merchant, item name), and the sell key is built from (actor,
inventory item id) only — it ignores the merchant id, so sells differing
only in merchant always share a key and hit the same guard entry. -/
theorem tradeKey_components (env : TradeEnv) (a m m1 m2 i : String)
    (st : ServiceState) :
    tradeKeyOf a m i TradeKind.buy = buyTradeKey a m i
    ∧ tradeKeyOf a m1 i TradeKind.sell = tradeKeyOf a m2 i TradeKind.sell
    ∧ (st.activeTrades.contains (sellTradeKey a i) = true →
        sellItem env a i m1 st = (sellFailure msgDupSell, st)
          ∧ sellItem env a i m2 st = (sellFailure msgDupSell, st)) :=
  ⟨rfl, rfl, fun h => ⟨sellItem_dup env a i m1 st h, sellItem_dup env a i m2 st h⟩⟩

/-- Witness for the amended C3 at concrete ids and a concrete in-flight
state. -/
theorem tradeKey_components_witness :
    tradeKeyOf "u" "mA" "i" TradeKind.buy = buyTradeKey "u" "mA" "i"
    ∧ tradeKeyOf "u" "mA" "i" TradeKind.sell = tradeKeyOf "u" "mB" "i" TradeKind.sell
    ∧ (sellItem baseEnv "u" "i" "mA" sellKeySt = (sellFailure msgDupSell, sellKeySt)
        ∧ sellItem baseEnv "u" "i" "mB" sellKeySt = (sellFailure msgDupSell, sellKeySt)) :=
  ⟨(tradeKey_components baseEnv "u" "mA" "mA" "mB" "i" sellKeySt).1,
   (tradeKey_components baseEnv "u" "mA" "mA" "mB" "i" sellKeySt).2.1,
   (tradeKey_components baseEnv "u" "mA" "mA" "mB" "i" sellKeySt).2.2 (by decide)⟩

/-! ## State-projection lemmas: the progression and achievement engines
only write their own tables -/

theorem checkAchievements_players (pid now : String) (db : GameState) :
    ((checkAchievements pid now db).2).players = db.players := rfl

theorem checkAchievements_merchants (pid now : String) (db : GameState) :
    ((checkAchievements pid now db).2).merchants = db.merchants := rfl

theorem checkAchievements_inventory (pid now : String) (db : GameState) :
    ((checkAchievements pid now db).2).inventory = db.inventory := rfl

theorem checkAchievements_trades (pid now : String) (db : GameState) :
    ((checkAchievements pid now db).2).trades = db.trades := rfl

theorem checkAchievements_characterStats (pid now : String) (db : GameState) :
    ((checkAchievements pid now db).2).characterStats = db.characterStats := rfl

theorem giveExperience_players (pid : String) (e : ℤ) (db : GameState) :
    ((giveExperience pid e db).2).players = db.players := by
  unfold giveExperience
  cases db.characterStats.find? (fun c => c.playerId == pid) <;> rfl

theorem giveExperience_merchants (pid : String) (e : ℤ) (db : GameState) :
    ((giveExperience pid e db).2).merchants = db.merchants := by
  unfold giveExperience
  cases db.characterStats.find? (fun c => c.playerId == pid) <;> rfl

theorem giveExperience_inventory (pid : String) (e : ℤ) (db : GameState) :
    ((giveExperience pid e db).2).inventory = db.inventory := by
  unfold giveExperience
  cases db.characterStats.find? (fun c => c.playerId == pid) <;> rfl

theorem giveExperience_trades (pid : String) (e : ℤ) (db : GameState) :
    ((giveExperience pid e db).2).trades = db.trades := by
  unfold giveExperience
  cases db.characterStats.find? (fun c => c.playerId == pid) <;> rfl

/-! ## Observation helpers -/

/-- The money of the first player row matching a user id (as `buyItem`'s
`SELECT * FROM players WHERE user_id = ?` resolves it). -/
def playerMoney (db : GameState) (uid : String) : Option ℤ :=
  (db.players.find? fun p => p.userId == uid).map fun p => p.money

/-- The remaining stock of the named line of the first merchant row matching
an id. -/
def stockOf (db : GameState) (mid iname : String) : Option ℤ :=
  (db.merchants.find? fun mr => mr.id == mid).bind fun mr =>
    (mr.inventory.find? fun it => it.name == iname).map fun it => it.stock

/-- `decStock` decrements exactly the line that `find` located. -/
theorem decStock_find? (l : List StockLine) (nm : String) :
    (decStock l nm).find? (fun x => x.name == nm)
      = (l.find? (fun x => x.name == nm)).map
          (fun x => {x with stock := x.stock - 1}) := by
  induction l with
  | nil => rfl
  | cons x xs ih =>
    unfold decStock
    cases hx : x.name == nm with
    | true => simp [List.find?_cons, hx]
    | false => simp [List.find?_cons, hx, ih]

/-- `find?` commutes with a row update that cannot change the row filter. -/
theorem find?_map_pred_invariant {α : Type} (l : List α) (p : α → Bool) (f : α → α)
    (hpf : ∀ x, p (f x) = p x) :
    (l.map f).find? p = (l.find? p).map f := by
  rw [List.find?_map]
  have hc : p ∘ f = p := funext hpf
  rw [hc]

/-- Success specification of the `buyItem` transaction body: the resolved
player is debited by exactly the quoted price (and credited one trust
point), the resolved merchant's named stock line is decremented by exactly
one, and exactly one inventory row is inserted. -/
theorem buyBody_ok_spec (env : TradeEnv) (u m i : String) (db : GameState)
    (d : BuyData) (db' : GameState)
    (h : buyBody env u m i db = Except.ok (d, db')) :
    ∃ p mer item,
      db.players.find? (fun x => x.userId == u) = some p
      ∧ db.merchants.find? (fun x => x.id == m) = some mer
      ∧ mer.inventory.find? (fun x => x.name == i) = some item
      ∧ d.purchasedItem.purchasePrice
          = calculateCurrentPrice item mer.district env.hour env.rand
      ∧ playerMoney db u = some p.money
      ∧ playerMoney db' u = some (p.money - d.purchasedItem.purchasePrice)
      ∧ stockOf db m i = some item.stock
      ∧ stockOf db' m i = some (item.stock - 1)
      ∧ db'.inventory.length = db.inventory.length + 1 := by
  simp only [buyBody] at h
  cases hp : db.players.find? (fun x => x.userId == u) with
  | none =>
    simp only [hp] at h
    exact Except.noConfusion h
  | some p =>
  simp only [hp] at h
  cases hm : db.merchants.find? (fun x => x.id == m) with
  | none =>
    simp only [hm] at h
    exact Except.noConfusion h
  | some mer =>
  simp only [hm] at h
  by_cases hl : p.currentLicense < mer.requiredLicense
  · simp only [if_pos hl] at h
    exact Except.noConfusion h
  · simp only [if_neg hl] at h
    cases hi : mer.inventory.find? (fun x => x.name == i) with
    | none =>
      simp only [hi] at h
      exact Except.noConfusion h
    | some item =>
    simp only [hi] at h
    by_cases hs : item.stock ≤ 0
    · simp only [if_pos hs] at h
      exact Except.noConfusion h
    · simp only [if_neg hs] at h
      by_cases hcap : p.maxInventorySize ≤
          ((db.inventory.filter fun r => r.playerId == p.id).length : ℤ)
      · simp only [if_pos hcap] at h
        exact Except.noConfusion h
      · simp only [if_neg hcap] at h
        by_cases hmoney : p.money < calculateCurrentPrice item mer.district env.hour env.rand
        · simp only [if_pos hmoney] at h
          exact Except.noConfusion h
        · simp only [if_neg hmoney] at h
          by_cases hdist : distanceTooFar (calculateDistance env.hav
              p.locationLat p.locationLng mer.locationLat mer.locationLng) = true
          · simp only [hdist, if_true] at h
            exact Except.noConfusion h
          · simp only [hdist, Bool.false_eq_true, if_false] at h
            injection h with h1
            injection h1 with hd hdb
            subst hd hdb
            refine ⟨p, mer, item, rfl, rfl, hi, rfl, ?_, ?_, ?_, ?_, ?_⟩
            · simp [playerMoney, hp]
            · have hfp : (db.players.map (fun q =>
                  if (q.id == p.id) = true then
                    {q with money := q.money - calculateCurrentPrice item mer.district env.hour env.rand,
                            trustPoints := q.trustPoints + 1}
                  else q)).find? (fun x => x.userId == u)
                  = some {p with money := p.money - calculateCurrentPrice item mer.district env.hour env.rand,
                                 trustPoints := p.trustPoints + 1} := by
                rw [find?_map_pred_invariant]
                · rw [hp]; simp
                · intro x; by_cases hx : (x.id == p.id) = true <;> simp [hx]
              simp only [playerMoney, checkAchievements_players, giveExperience_players]
              rw [hfp]
              rfl
            · simp [stockOf, hm, hi]
            · have hfm : (db.merchants.map (fun mm =>
                  if (mm.id == m) = true then {mm with inventory := decStock mer.inventory i}
                  else mm)).find? (fun x => x.id == m)
                  = some {mer with inventory := decStock mer.inventory i} := by
                rw [find?_map_pred_invariant]
                · rw [hm]
                  have hmeq : mer.id = m := by
                    simpa using List.find?_some hm
                  simp [hmeq]
                · intro x; by_cases hx : (x.id == m) = true <;> simp [hx]
              simp only [stockOf, checkAchievements_merchants, giveExperience_merchants]
              rw [hfm]
              simp [decStock_find?, hi]
            · simp only [checkAchievements_inventory, giveExperience_inventory]
              simp

/-- Full specification of one `buyItem` invocation: every failure leaves the
database untouched (duplicate guard or rollback), and a success debits the
resolved player by exactly the quoted price, decrements the resolved stock
line by exactly one and inserts exactly one inventory row. -/
theorem buyItem_spec (env : TradeEnv) (u m i : String) (st : ServiceState)
    (res : BuyResult) (st' : ServiceState)
    (h : buyItem env u m i st = (res, st')) :
    (res.success = false → st'.db = st.db)
    ∧ (res.success = true → ∃ price mer item,
        st.db.merchants.find? (fun x => x.id == m) = some mer
        ∧ mer.inventory.find? (fun x => x.name == i) = some item
        ∧ price = calculateCurrentPrice item mer.district env.hour env.rand
        ∧ (∃ dd, res.data = some dd ∧ dd.purchasedItem.purchasePrice = price)
        ∧ (playerMoney st.db u).isSome = true
        ∧ playerMoney st'.db u = (playerMoney st.db u).map (fun x => x - price)
        ∧ stockOf st.db m i = some item.stock
        ∧ stockOf st'.db m i = (stockOf st.db m i).map (fun x => x - 1)
        ∧ st'.db.inventory.length = st.db.inventory.length + 1) := by
  unfold buyItem at h
  by_cases hdup : st.activeTrades.contains (buyTradeKey u m i) = true
  · rw [if_pos hdup] at h
    injection h with h1 h2
    subst h1 h2
    exact ⟨fun _ => rfl, fun hsucc => absurd hsucc (by simp [buyFailure])⟩
  · rw [if_neg hdup] at h
    cases hb : buyBody env u m i st.db with
    | error msg =>
      rw [hb] at h
      injection h with h1 h2
      subst h1 h2
      exact ⟨fun _ => rfl, fun hsucc => absurd hsucc (by simp [buyFailure])⟩
    | ok r =>
      rw [hb] at h
      injection h with h1 h2
      subst h1 h2
      refine ⟨fun hfalse => absurd hfalse (by simp), fun _ => ?_⟩
      obtain ⟨p, mer, item, hp', hm', hi', hprice, hpm, hpm', hst, hst', hlen⟩ :=
        buyBody_ok_spec env u m i st.db r.1 r.2 (by rw [hb])
      refine ⟨calculateCurrentPrice item mer.district env.hour env.rand, mer, item,
        hm', hi', rfl, ⟨r.1, rfl, hprice⟩, ?_, ?_, hst, ?_, hlen⟩
      · rw [hpm]; rfl
      · show playerMoney r.2 u = _
        rw [hpm', hpm, hprice]
        rfl
      · show stockOf r.2 m i = _
        rw [hst', hst]
        rfl

/-- C1: for every completed buy the player's money decreases by exactly the
quoted price and the resolved merchant stock line decreases by exactly 1;
on every failure path (duplicate guard, any precondition, or rollback) the
database is unchanged, so the two mutations land together or not at all. -/
theorem buyItem_atomic (env : TradeEnv) (u m i : String) (st : ServiceState)
    (res : BuyResult) (st' : ServiceState)
    (h : buyItem env u m i st = (res, st')) :
    (res.success = false → st'.db = st.db)
    ∧ (res.success = true → ∃ price mer item,
        st.db.merchants.find? (fun x => x.id == m) = some mer
        ∧ mer.inventory.find? (fun x => x.name == i) = some item
        ∧ price = calculateCurrentPrice item mer.district env.hour env.rand
        ∧ (∃ dd, res.data = some dd ∧ dd.purchasedItem.purchasePrice = price)
        ∧ (playerMoney st.db u).isSome = true
        ∧ playerMoney st'.db u = (playerMoney st.db u).map (fun x => x - price)
        ∧ stockOf st.db m i = some item.stock
        ∧ stockOf st'.db m i = (stockOf st.db m i).map (fun x => x - 1)) := by
  obtain ⟨hfail, hok⟩ := buyItem_spec env u m i st res st' h
  refine ⟨hfail, fun hs => ?_⟩
  obtain ⟨price, mer, item, h1, h2, h3, h4, h5, h6, h7, h8, h9⟩ := hok hs
  exact ⟨price, mer, item, h1, h2, h3, h4, h5, h6, h7, h8⟩

/-- Witness for C1: the concrete base scenario buy succeeds, and the theorem
applied to it yields the money/stock deltas; its failure clause is also
exercised at the duplicate-guard state. -/
theorem buyItem_atomic_witness :
    (buyItem baseEnv "u1" "m1" "apple" baseSt).1.success = true
    ∧ ((buyItem baseEnv "u1" "m1" "apple" baseSt).1.success = true → ∃ price mer item,
        baseSt.db.merchants.find? (fun x => x.id == "m1") = some mer
        ∧ mer.inventory.find? (fun x => x.name == "apple") = some item
        ∧ price = calculateCurrentPrice item mer.district baseEnv.hour baseEnv.rand
        ∧ (∃ dd, (buyItem baseEnv "u1" "m1" "apple" baseSt).1.data = some dd
            ∧ dd.purchasedItem.purchasePrice = price)
        ∧ (playerMoney baseSt.db "u1").isSome = true
        ∧ playerMoney ((buyItem baseEnv "u1" "m1" "apple" baseSt).2).db "u1"
            = (playerMoney baseSt.db "u1").map (fun x => x - price)
        ∧ stockOf baseSt.db "m1" "apple" = some item.stock
        ∧ stockOf ((buyItem baseEnv "u1" "m1" "apple" baseSt).2).db "m1" "apple"
            = (stockOf baseSt.db "m1" "apple").map (fun x => x - 1))
    ∧ ((buyItem baseEnv "u1" "m1" "apple" dupSt).1.success = false →
        ((buyItem baseEnv "u1" "m1" "apple" dupSt).2).db = dupSt.db) :=
  ⟨by decide,
   (buyItem_atomic baseEnv "u1" "m1" "apple" baseSt _ _ rfl).2,
   (buyItem_atomic baseEnv "u1" "m1" "apple" dupSt _ _ rfl).1⟩

/-- C9: the transport layer accepts `quantity` between 1 and 10 and forwards
it, but `buyItem`'s signature ignores it — the route's response and state
change are identical for any two in-range quantities, and every accepted buy
purchases exactly one unit: one inventory row inserted, the stock line
decremented by exactly 1, the player charged one unit's quoted price. -/
theorem tradeBuyRoute_quantity_irrelevant (env : TradeEnv) (u : String)
    (mid iname : Option String) (q1 q2 : ℤ) (st : ServiceState)
    (hq1a : 1 ≤ q1) (hq1b : q1 ≤ 10) (hq2a : 1 ≤ q2) (hq2b : q2 ≤ 10) :
    tradeBuyRoute env u mid iname q1 st = tradeBuyRoute env u mid iname q2 st
    ∧ (∀ resp st', tradeBuyRoute env u mid iname q1 st = (resp, st') →
        resp.success = true →
          st'.db.inventory.length = st.db.inventory.length + 1
          ∧ (∃ dd, resp.data = some dd ∧ playerMoney st'.db u
              = (playerMoney st.db u).map (fun x => x - dd.purchasedItem.purchasePrice))
          ∧ stockOf st'.db (mid.getD "") (iname.getD "")
              = (stockOf st.db (mid.getD "") (iname.getD "")).map (fun x => x - 1)) := by
  have hg1 : ¬((decide (q1 < 1) || decide (10 < q1)) = true) := by
    simp only [Bool.or_eq_true, decide_eq_true_eq]
    omega
  have hg2 : ¬((decide (q2 < 1) || decide (10 < q2)) = true) := by
    simp only [Bool.or_eq_true, decide_eq_true_eq]
    omega
  constructor
  · unfold tradeBuyRoute
    by_cases hf : (jsFalsyStr mid || jsFalsyStr iname) = true
    · rw [if_pos hf, if_pos hf]
    · rw [if_neg hf, if_neg hf, if_neg hg1, if_neg hg2]
  · intro resp st' h hsucc
    unfold tradeBuyRoute at h
    by_cases hf : (jsFalsyStr mid || jsFalsyStr iname) = true
    · rw [if_pos hf] at h
      injection h with h1 h2
      subst h1 h2
      simp at hsucc
    · rw [if_neg hf, if_neg hg1] at h
      rcases hbr : buyItem env u (mid.getD "") (iname.getD "") st with ⟨bres, bst2⟩
      rw [hbr] at h
      unfold tradeBuyFinish at h
      cases hbs : bres.success with
      | false =>
        rw [if_neg (by rw [hbs]; exact Bool.false_ne_true)] at h
        injection h with h1 h2
        subst h1 h2
        simp at hsucc
      | true =>
        rw [if_pos hbs] at h
        injection h with h1 h2
        subst h1 h2
        obtain ⟨_, hok⟩ := buyItem_spec env u (mid.getD "") (iname.getD "") st bres bst2 hbr
        obtain ⟨price, mer, item, hm', hi', hpr, ⟨dd, hdd, hddp⟩, h5, h6, h7, h8, h9⟩ :=
          hok hbs
        refine ⟨h9, ⟨dd, hdd, ?_⟩, h8⟩
        rw [hddp, h6]

/-- Witness for C9: quantities 1 and 10 give identical outcomes on the
concrete base scenario; the accepted buy inserts one row, charges one
unit's price and decrements the line by one. -/
theorem tradeBuyRoute_quantity_irrelevant_witness :
    tradeBuyRoute baseEnv "u1" (some "m1") (some "apple") 1 baseSt
      = tradeBuyRoute baseEnv "u1" (some "m1") (some "apple") 10 baseSt
    ∧ (tradeBuyRoute baseEnv "u1" (some "m1") (some "apple") 1 baseSt).1.success = true
    ∧ (((tradeBuyRoute baseEnv "u1" (some "m1") (some "apple") 1 baseSt).2).db.inventory.length
          = baseSt.db.inventory.length + 1
        ∧ (∃ dd, (tradeBuyRoute baseEnv "u1" (some "m1") (some "apple") 1 baseSt).1.data = some dd
            ∧ playerMoney ((tradeBuyRoute baseEnv "u1" (some "m1") (some "apple") 1 baseSt).2).db "u1"
                = (playerMoney baseSt.db "u1").map (fun x => x - dd.purchasedItem.purchasePrice))
        ∧ stockOf ((tradeBuyRoute baseEnv "u1" (some "m1") (some "apple") 1 baseSt).2).db "m1" "apple"
            = (stockOf baseSt.db "m1" "apple").map (fun x => x - 1)) :=
  ⟨(tradeBuyRoute_quantity_irrelevant baseEnv "u1" (some "m1") (some "apple") 1 10 baseSt
      (by decide) (by decide) (by decide) (by decide)).1,
   by decide,
   (tradeBuyRoute_quantity_irrelevant baseEnv "u1" (some "m1") (some "apple") 1 10 baseSt
      (by decide) (by decide) (by decide) (by decide)).2 _ _ rfl (by decide)⟩

/-! ## Distance-guard lemmas for both flows -/

/-- All `buyItem` preconditions before the distance check: player and
merchant resolve, license suffices, the stock line exists with stock,
capacity remains, funds suffice. -/
abbrev buyPreOk (env : TradeEnv) (u m i : String) (db : GameState)
    (p : Player) (mer : Merchant) (item : StockLine) : Prop :=
  db.players.find? (fun x => x.userId == u) = some p
  ∧ db.merchants.find? (fun x => x.id == m) = some mer
  ∧ ¬ p.currentLicense < mer.requiredLicense
  ∧ mer.inventory.find? (fun x => x.name == i) = some item
  ∧ ¬ item.stock ≤ 0
  ∧ ¬ p.maxInventorySize ≤ ((db.inventory.filter fun r => r.playerId == p.id).length : ℤ)
  ∧ ¬ p.money < calculateCurrentPrice item mer.district env.hour env.rand

/-- All `sellItem` preconditions before the distance check: player, owned
inventory item and merchant resolve. -/
abbrev sellPreOk (u iid m : String) (db : GameState)
    (p : Player) (sitem : InvItem) (mer : Merchant) : Prop :=
  db.players.find? (fun x => x.userId == u) = some p
  ∧ db.inventory.find? (fun x => x.id == iid && x.playerId == p.id) = some sitem
  ∧ db.merchants.find? (fun x => x.id == m) = some mer

theorem buyBody_tooFar (env : TradeEnv) (u m i : String) (db : GameState)
    (p : Player) (mer : Merchant) (item : StockLine)
    (hpre : buyPreOk env u m i db p mer item)
    (hd : distanceTooFar (calculateDistance env.hav p.locationLat p.locationLng
      mer.locationLat mer.locationLng) = true) :
    buyBody env u m i db = Except.error msgTooFar := by
  obtain ⟨hp, hm, hl, hi, hs, hcap, hmoney⟩ := hpre
  simp only [buyBody, hp, hm, if_neg hl, hi, if_neg hs, if_neg hcap, if_neg hmoney,
    hd, if_true]

theorem buyBody_ok_of_near (env : TradeEnv) (u m i : String) (db : GameState)
    (p : Player) (mer : Merchant) (item : StockLine)
    (hpre : buyPreOk env u m i db p mer item)
    (hd : distanceTooFar (calculateDistance env.hav p.locationLat p.locationLng
      mer.locationLat mer.locationLng) = false) :
    ∃ r, buyBody env u m i db = Except.ok r := by
  obtain ⟨hp, hm, hl, hi, hs, hcap, hmoney⟩ := hpre
  simp only [buyBody, hp, hm, if_neg hl, hi, if_neg hs, if_neg hcap, if_neg hmoney,
    hd, Bool.false_eq_true, if_false]
  exact ⟨_, rfl⟩

theorem sellBody_tooFar (env : TradeEnv) (u iid m : String) (db : GameState)
    (p : Player) (sitem : InvItem) (mer : Merchant)
    (hpre : sellPreOk u iid m db p sitem mer)
    (hd : distanceTooFar (calculateDistance env.hav p.locationLat p.locationLng
      mer.locationLat mer.locationLng) = true) :
    sellBody env u iid m db = Except.error msgTooFar := by
  obtain ⟨hp, hi, hm⟩ := hpre
  simp only [sellBody, hp, hi, hm, hd, if_true]

theorem sellBody_ok_of_near (env : TradeEnv) (u iid m : String) (db : GameState)
    (p : Player) (sitem : InvItem) (mer : Merchant)
    (hpre : sellPreOk u iid m db p sitem mer)
    (hd : distanceTooFar (calculateDistance env.hav p.locationLat p.locationLng
      mer.locationLat mer.locationLng) = false) :
    ∃ r, sellBody env u iid m db = Except.ok r := by
  obtain ⟨hp, hi, hm⟩ := hpre
  simp only [sellBody, hp, hi, hm, hd, Bool.false_eq_true, if_false]
  exact ⟨_, rfl⟩

theorem buyItem_tooFar (env : TradeEnv) (u m i : String) (st : ServiceState)
    (p : Player) (mer : Merchant) (item : StockLine)
    (hkey : st.activeTrades.contains (buyTradeKey u m i) = false)
    (hpre : buyPreOk env u m i st.db p mer item)
    (hd : distanceTooFar (calculateDistance env.hav p.locationLat p.locationLng
      mer.locationLat mer.locationLng) = true) :
    buyItem env u m i st = (buyFailure msgTooFar, st) := by
  unfold buyItem
  rw [if_neg (by rw [hkey]; exact Bool.false_ne_true)]
  rw [buyBody_tooFar env u m i st.db p mer item hpre hd]
  simp

theorem buyItem_success_of_near (env : TradeEnv) (u m i : String) (st : ServiceState)
    (p : Player) (mer : Merchant) (item : StockLine)
    (hkey : st.activeTrades.contains (buyTradeKey u m i) = false)
    (hpre : buyPreOk env u m i st.db p mer item)
    (hd : distanceTooFar (calculateDistance env.hav p.locationLat p.locationLng
      mer.locationLat mer.locationLng) = false) :
    (buyItem env u m i st).1.success = true := by
  unfold buyItem
  rw [if_neg (by rw [hkey]; exact Bool.false_ne_true)]
  obtain ⟨r, hr⟩ := buyBody_ok_of_near env u m i st.db p mer item hpre hd
  rw [hr]

theorem sellItem_tooFar (env : TradeEnv) (u iid m : String) (st : ServiceState)
    (p : Player) (sitem : InvItem) (mer : Merchant)
    (hkey : st.activeTrades.contains (sellTradeKey u iid) = false)
    (hpre : sellPreOk u iid m st.db p sitem mer)
    (hd : distanceTooFar (calculateDistance env.hav p.locationLat p.locationLng
      mer.locationLat mer.locationLng) = true) :
    sellItem env u iid m st = (sellFailure msgTooFar, st) := by
  unfold sellItem
  rw [if_neg (by rw [hkey]; exact Bool.false_ne_true)]
  rw [sellBody_tooFar env u iid m st.db p sitem mer hpre hd]
  simp

theorem sellItem_success_of_near (env : TradeEnv) (u iid m : String) (st : ServiceState)
    (p : Player) (sitem : InvItem) (mer : Merchant)
    (hkey : st.activeTrades.contains (sellTradeKey u iid) = false)
    (hpre : sellPreOk u iid m st.db p sitem mer)
    (hd : distanceTooFar (calculateDistance env.hav p.locationLat p.locationLng
      mer.locationLat mer.locationLng) = false) :
    (sellItem env u iid m st).1.success = true := by
  unfold sellItem
  rw [if_neg (by rw [hkey]; exact Bool.false_ne_true)]
  obtain ⟨r, hr⟩ := sellBody_ok_of_near env u iid m st.db p sitem mer hpre hd
  rw [hr]

/-- C5: the distance precondition is inclusive at the boundary — the guard
passes exactly when the distance is ≤ 0.5 km (so exactly 0.5 km passes and
anything strictly greater fails), a missing player coordinate makes
`calculateDistance` return `Infinity`, which always trips the guard; and in
both flows, when every earlier precondition holds, a tripped guard yields
the too-far failure with no state change while an untripped one lets the
trade succeed. -/
theorem distance_precondition_inclusive :
    (∀ d : WithTop ℚ, distanceTooFar d = false ↔ d ≤ ((1/2 : ℚ) : WithTop ℚ))
    ∧ (∀ (hav : ℚ → ℚ → ℚ → ℚ → ℚ) (lat1 lng1 lat2 lng2 : Option ℚ),
        (lat1 = none ∨ lng1 = none) →
          calculateDistance hav lat1 lng1 lat2 lng2 = ⊤ ∧ distanceTooFar ⊤ = true)
    ∧ (∀ (env : TradeEnv) (u m i : String) (st : ServiceState) p mer item,
        st.activeTrades.contains (buyTradeKey u m i) = false →
        buyPreOk env u m i st.db p mer item →
          (distanceTooFar (calculateDistance env.hav p.locationLat p.locationLng
              mer.locationLat mer.locationLng) = true →
            buyItem env u m i st = (buyFailure msgTooFar, st))
          ∧ (distanceTooFar (calculateDistance env.hav p.locationLat p.locationLng
              mer.locationLat mer.locationLng) = false →
            (buyItem env u m i st).1.success = true))
    ∧ (∀ (env : TradeEnv) (u iid m : String) (st : ServiceState) p sitem mer,
        st.activeTrades.contains (sellTradeKey u iid) = false →
        sellPreOk u iid m st.db p sitem mer →
          (distanceTooFar (calculateDistance env.hav p.locationLat p.locationLng
              mer.locationLat mer.locationLng) = true →
            sellItem env u iid m st = (sellFailure msgTooFar, st))
          ∧ (distanceTooFar (calculateDistance env.hav p.locationLat p.locationLng
              mer.locationLat mer.locationLng) = false →
            (sellItem env u iid m st).1.success = true)) := by
  refine ⟨?_, ?_, ?_, ?_⟩
  · intro d
    rw [distanceTooFar]
    rw [decide_eq_false_iff_not]
    exact not_lt
  · intro hav lat1 lng1 lat2 lng2 hmiss
    constructor
    · rcases hmiss with h | h <;> subst h <;> simp [calculateDistance, jsFalsy]
    · decide
  · intro env u m i st p mer item hkey hpre
    exact ⟨buyItem_tooFar env u m i st p mer item hkey hpre,
      buyItem_success_of_near env u m i st p mer item hkey hpre⟩
  · intro env u iid m st p sitem mer hkey hpre
    exact ⟨sellItem_tooFar env u iid m st p sitem mer hkey hpre,
      sellItem_success_of_near env u iid m st p sitem mer hkey hpre⟩

/-- An environment whose haversine core reports 1 km (strictly beyond the
0.5 km bound). -/
def farEnv : TradeEnv := ⟨0, 1/2, 1/2, fun _ _ _ _ => 1, "inv1", "tr1", "t0"⟩

/-- The database holding Alice's sellable inventory item `i1`. -/
def sellDb : GameState :=
  ⟨[alice], [groceryMerchant], [c4Item], [], [defaultCharStats "p1"], [], [], [], []⟩

/-- Service state for the concrete sell scenarios. -/
def sellSt : ServiceState := ⟨[], sellDb⟩

/-- Witness for C5: at distance exactly 0.5 the guard passes; the base buy
(distance 0) and sell succeed; with the haversine core at 1 km both flows
fail with the too-far error and unchanged state; a missing player latitude
resolves to `Infinity`. -/
theorem distance_precondition_inclusive_witness :
    (distanceTooFar ((1/2 : ℚ) : WithTop ℚ) = false ↔
      ((1/2 : ℚ) : WithTop ℚ) ≤ ((1/2 : ℚ) : WithTop ℚ))
    ∧ (calculateDistance baseEnv.hav none (some 127) (some 37) (some 127) = ⊤
        ∧ distanceTooFar ⊤ = true)
    ∧ buyItem farEnv "u1" "m1" "apple" baseSt = (buyFailure msgTooFar, baseSt)
    ∧ (buyItem baseEnv "u1" "m1" "apple" baseSt).1.success = true
    ∧ sellItem farEnv "u1" "i1" "m1" sellSt = (sellFailure msgTooFar, sellSt)
    ∧ (sellItem baseEnv "u1" "i1" "m1" sellSt).1.success = true :=
  ⟨(distance_precondition_inclusive.1 ((1/2 : ℚ) : WithTop ℚ)),
   distance_precondition_inclusive.2.1 baseEnv.hav none (some 127) (some 37) (some 127)
     (Or.inl rfl),
   (distance_precondition_inclusive.2.2.1 farEnv "u1" "m1" "apple" baseSt
     alice groceryMerchant appleLine (by decide) (by decide)).1 (by decide),
   (distance_precondition_inclusive.2.2.1 baseEnv "u1" "m1" "apple" baseSt
     alice groceryMerchant appleLine (by decide) (by decide)).2 (by decide),
   (distance_precondition_inclusive.2.2.2 farEnv "u1" "i1" "m1" sellSt
     alice c4Item groceryMerchant (by decide) (by decide)).1 (by decide),
   (distance_precondition_inclusive.2.2.2 baseEnv "u1" "i1" "m1" sellSt
     alice c4Item groceryMerchant (by decide) (by decide)).2 (by decide)⟩

/-- C10: `calculateDistance` returns `Infinity` not only for `null`
coordinates but also whenever any coordinate equals `0` (JS falsiness of
`!lat`), and `Infinity` always trips the `> 0.5` guard — so a trade in which
any party's coordinate is exactly `0` always fails the distance check. -/
theorem calculateDistance_zero_coordinate :
    (∀ (hav : ℚ → ℚ → ℚ → ℚ → ℚ) (lat1 lng1 lat2 lng2 : Option ℚ),
        (lat1 = some 0 ∨ lng1 = some 0 ∨ lat2 = some 0 ∨ lng2 = some 0) →
          calculateDistance hav lat1 lng1 lat2 lng2 = ⊤)
    ∧ (∀ (hav : ℚ → ℚ → ℚ → ℚ → ℚ) (lat1 lng1 lat2 lng2 : Option ℚ),
        (lat1 = none ∨ lng1 = none ∨ lat2 = none ∨ lng2 = none) →
          calculateDistance hav lat1 lng1 lat2 lng2 = ⊤)
    ∧ distanceTooFar ⊤ = true
    ∧ (∀ (env : TradeEnv) (u m i : String) (st : ServiceState) p mer item,
        st.activeTrades.contains (buyTradeKey u m i) = false →
        buyPreOk env u m i st.db p mer item →
        p.locationLat = some 0 →
          buyItem env u m i st = (buyFailure msgTooFar, st)) := by
  refine ⟨?_, ?_, by decide, ?_⟩
  · intro hav lat1 lng1 lat2 lng2 hz
    rcases hz with h | h | h | h <;> subst h <;> simp [calculateDistance, jsFalsy]
  · intro hav lat1 lng1 lat2 lng2 hn
    rcases hn with h | h | h | h <;> subst h <;> simp [calculateDistance, jsFalsy]
  · intro env u m i st p mer item hkey hpre hz
    refine buyItem_tooFar env u m i st p mer item hkey hpre ?_
    rw [show calculateDistance env.hav p.locationLat p.locationLng
        mer.locationLat mer.locationLng = ⊤ from by
      rw [hz]; simp [calculateDistance, jsFalsy]]
    decide

/-- Alice standing at latitude exactly `0`. -/
def zeroAlice : Player := ⟨"p1", "u1", 10000, 5, 1, 5, some 0, some 127⟩

/-- The base database with the zero-latitude player. -/
def zeroDb : GameState :=
  ⟨[zeroAlice], [groceryMerchant], [], [], [defaultCharStats "p1"], [], [], [], []⟩

/-- Service state for the zero-coordinate scenario. -/
def zeroSt : ServiceState := ⟨[], zeroDb⟩

/-- Witness for C10: a latitude of exactly `0` resolves to `Infinity` and the
otherwise-valid concrete buy fails with the too-far error and no
state change. -/
theorem calculateDistance_zero_coordinate_witness :
    calculateDistance baseEnv.hav (some 0) (some 127) (some 37) (some 127) = ⊤
    ∧ calculateDistance baseEnv.hav none (some 127) (some 37) (some 127) = ⊤
    ∧ distanceTooFar ⊤ = true
    ∧ buyItem baseEnv "u1" "m1" "apple" zeroSt = (buyFailure msgTooFar, zeroSt) :=
  ⟨calculateDistance_zero_coordinate.1 baseEnv.hav (some 0) (some 127) (some 37)
     (some 127) (Or.inl rfl),
   calculateDistance_zero_coordinate.2.1 baseEnv.hav none (some 127) (some 37)
     (some 127) (Or.inl rfl),
   calculateDistance_zero_coordinate.2.2.1,
   calculateDistance_zero_coordinate.2.2.2 baseEnv "u1" "m1" "apple" zeroSt
     zeroAlice groceryMerchant appleLine (by decide) (by decide) rfl⟩

/-! ## Idempotence of the achievement engine (C7) -/

/-- `find?` over a map that neither changes the filter value of any row nor
the rows the filter accepts. -/
theorem find?_map_fixed {α : Type} (l : List α) (p : α → Bool) (f : α → α)
    (hp : ∀ x, p (f x) = p x) (hfix : ∀ x, p x = true → f x = x) :
    (l.map f).find? p = l.find? p := by
  rw [find?_map_pred_invariant l p f hp]
  cases hf : l.find? p with
  | none => rfl
  | some r => simp [hfix r (List.find?_some hf)]

/-- A per-achievement stability invariant on the `player_achievements`
table: either a completed row for this (player, achievement) pair exists, or
the first matching row already records at least the recomputed progress. -/
def Settled (db : GameState) (pid : String) (pa : List PARow)
    (a : Achievement) : Prop :=
  (pa.find? fun r => paMatch pid a.id r && r.isCompleted).isSome = true
  ∨ (∃ r, pa.find? (paMatch pid a.id) = some r
      ∧ calculateAchievementProgress db pid a ≤ r.progress)

/-- On a settled achievement the loop body writes nothing and reports
nothing. -/
theorem processAchievement_of_settled (db : GameState) (pid now : String)
    (pa : List PARow) (a : Achievement) (h : Settled db pid pa a) :
    processAchievement db pid now pa a = (pa, none) := by
  unfold processAchievement
  by_cases hc : (pa.find? fun r => paMatch pid a.id r && r.isCompleted).isSome = true
  · rw [if_pos hc]
  · rw [if_neg hc]
    rcases h with h1 | ⟨r, hr, hle⟩
    · exact absurd h1 hc
    · simp only [hr]
      have hnd : ((some r).isNone
          || decide (((some r).map fun r => r.progress).getD 0
              < calculateAchievementProgress db pid a)) = false := by
        simp only [Option.isNone_some, Option.map_some', Option.getD_some,
          Bool.false_or, decide_eq_false_iff_not, not_lt]
        exact hle
      rw [if_neg (by rw [hnd]; exact Bool.false_ne_true)]

/-- After the loop body runs on an achievement, that achievement is
settled. -/
theorem processAchievement_settles (db : GameState) (pid now : String)
    (pa : List PARow) (a : Achievement) :
    Settled db pid ((processAchievement db pid now pa a).1) a := by
  unfold processAchievement
  by_cases hc : (pa.find? fun r => paMatch pid a.id r && r.isCompleted).isSome = true
  · rw [if_pos hc]
    exact Or.inl hc
  · rw [if_neg hc]
    cases hpa : pa.find? (paMatch pid a.id) with
    | none =>
      simp only [hpa, Option.isNone_none, Bool.true_or, if_true]
      right
      refine ⟨⟨pid ++ "_" ++ a.id, pid, a.id, calculateAchievementProgress db pid a,
        decide (a.conditionValue ≤ calculateAchievementProgress db pid a),
        if decide (a.conditionValue ≤ calculateAchievementProgress db pid a) = true
          then some now else none, false⟩, ?_, le_refl _⟩
      rw [List.find?_append, hpa, Option.none_or]
      simp [paMatch]
    | some r =>
      simp only [hpa, Option.isNone_some, Option.map_some', Option.getD_some,
        Bool.false_or]
      by_cases hlt : r.progress < calculateAchievementProgress db pid a
      · rw [if_pos (decide_eq_true hlt)]
        right
        refine ⟨⟨r.id, r.playerId, r.achievementId, calculateAchievementProgress db pid a,
          decide (a.conditionValue ≤ calculateAchievementProgress db pid a),
          if decide (a.conditionValue ≤ calculateAchievementProgress db pid a) = true
            then some now else r.completedAt, r.claimed⟩, ?_, le_refl _⟩
        rw [find?_map_pred_invariant _ _ _ (fun x => by
          by_cases hx : paMatch pid a.id x = true
          · rw [if_pos hx]
            simp [paMatch]
          · rw [if_neg hx])]
        rw [hpa, Option.map_some']
        have hpr : paMatch pid a.id r = true := List.find?_some hpa
        rw [if_pos hpr]
      · have hcf : (decide (r.progress < calculateAchievementProgress db pid a)) = false :=
          decide_eq_false hlt
        rw [if_neg (by rw [hcf]; exact Bool.false_ne_true)]
        exact Or.inr ⟨r, hpa, le_of_not_lt hlt⟩

/-- Processing achievement `b` preserves the stability of any achievement
`a` that was already settled, whatever the relation between `a` and `b`. -/
theorem processAchievement_preserves_settled (db : GameState) (pid now : String)
    (pa : List PARow) (b a : Achievement) (h : Settled db pid pa a) :
    Settled db pid ((processAchievement db pid now pa b).1) a := by
  unfold processAchievement
  by_cases hc : (pa.find? fun r => paMatch pid b.id r && r.isCompleted).isSome = true
  · rw [if_pos hc]
    exact h
  · rw [if_neg hc]
    cases hpb : pa.find? (paMatch pid b.id) with
    | none =>
      simp only [hpb, Option.isNone_none, Bool.true_or, if_true]
      by_cases hid : a.id = b.id
      · exfalso
        have hex : ∃ r ∈ pa, paMatch pid a.id r = true := by
          rcases h with h1 | ⟨r, hr, h2⟩
          · obtain ⟨r, hr⟩ := Option.isSome_iff_exists.mp h1
            refine ⟨r, List.mem_of_find?_eq_some hr, ?_⟩
            have := List.find?_some hr
            exact (Bool.and_eq_true _ _ ▸ this).1
          · exact ⟨r, List.mem_of_find?_eq_some hr, List.find?_some hr⟩
        obtain ⟨r, hmem, hpr⟩ := hex
        have hnone := List.find?_eq_none.mp hpb r hmem
        rw [← hid] at hnone
        exact hnone hpr
      · rcases h with h1 | ⟨r, hr, hle⟩
        · left
          obtain ⟨r, hr⟩ := Option.isSome_iff_exists.mp h1
          rw [List.find?_append, hr, Option.or_some]
          rfl
        · right
          refine ⟨r, ?_, hle⟩
          rw [List.find?_append, hr, Option.or_some]
    | some rb =>
      simp only [hpb, Option.isNone_some, Option.map_some', Option.getD_some,
        Bool.false_or]
      by_cases hlt : rb.progress < calculateAchievementProgress db pid b
      · rw [if_pos (decide_eq_true hlt)]
        by_cases hid : a.id = b.id
        · rcases h with h1 | ⟨r, hr, hle⟩
          · exact absurd (hid ▸ h1) hc
          · have hrrb : r = rb := by
              rw [hid] at hr
              rw [hr] at hpb
              exact Option.some.inj hpb
            subst hrrb
            right
            refine ⟨⟨r.id, r.playerId, r.achievementId, calculateAchievementProgress db pid b,
              decide (b.conditionValue ≤ calculateAchievementProgress db pid b),
              if decide (b.conditionValue ≤ calculateAchievementProgress db pid b) = true
                then some now else r.completedAt, r.claimed⟩, ?_, ?_⟩
            · rw [find?_map_pred_invariant _ _ _ (fun x => by
                by_cases hx : paMatch pid b.id x = true
                · rw [if_pos hx]
                  simp [paMatch]
                · rw [if_neg hx])]
              rw [hid, hpb, Option.map_some']
              have hpr : paMatch pid b.id r = true := List.find?_some hpb
              rw [if_pos hpr]
            · exact le_of_lt (lt_of_le_of_lt hle hlt)
        · have haid : ∀ x : PARow, paMatch pid b.id x = true → x.achievementId = b.id := by
            intro x hx
            simp only [paMatch, Bool.and_eq_true, beq_iff_eq] at hx
            exact hx.2
          have hfixa : ∀ x : PARow, paMatch pid a.id x = true →
              (if paMatch pid b.id x = true then
                (⟨x.id, x.playerId, x.achievementId, calculateAchievementProgress db pid b,
                  decide (b.conditionValue ≤ calculateAchievementProgress db pid b),
                  if decide (b.conditionValue ≤ calculateAchievementProgress db pid b) = true
                    then some now else rb.completedAt, x.claimed⟩ : PARow)
              else x) = x := by
            intro x hx
            rw [if_neg]
            intro hbx
            have h1 := haid x hbx
            simp only [paMatch, Bool.and_eq_true, beq_iff_eq] at hx
            exact hid (hx.2 ▸ h1)
          rcases h with h1 | ⟨r, hr, hle⟩
          · left
            rw [find?_map_fixed _ _ _ (fun x => by
              by_cases hbx : paMatch pid b.id x = true
              · rw [if_pos hbx]
                have hba := haid x hbx
                have hne : (x.achievementId == a.id) = false := by
                  rw [hba]
                  exact beq_eq_false_iff_ne.mpr (fun h' => hid h'.symm)
                simp [paMatch, hne]
              · rw [if_neg hbx]) (fun x hx => hfixa x ((Bool.and_eq_true _ _ ▸ hx).1))]
            exact h1
          · right
            refine ⟨r, ?_, hle⟩
            rw [find?_map_fixed _ _ _ (fun x => by
              by_cases hbx : paMatch pid b.id x = true
              · rw [if_pos hbx]
                simp [paMatch]
              · rw [if_neg hbx]) hfixa]
            exact hr
      · have hcf : (decide (rb.progress < calculateAchievementProgress db pid b)) = false :=
          decide_eq_false hlt
        rw [if_neg (by rw [hcf]; exact Bool.false_ne_true)]
        exact h

/-- Progress recomputation never reads the `player_achievements` table. -/
theorem calcProgress_pa (db : GameState) (pa : List PARow) (pid : String)
    (a : Achievement) :
    calculateAchievementProgress {db with playerAchievements := pa} pid a
      = calculateAchievementProgress db pid a := rfl

/-- The loop body only reads `player_achievements` through its explicit
`pa` argument. -/
theorem processAchievement_pa (db : GameState) (pa' : List PARow)
    (pid now : String) (pa : List PARow) (a : Achievement) :
    processAchievement {db with playerAchievements := pa'} pid now pa a
      = processAchievement db pid now pa a := rfl

theorem checkLoop_pa (db : GameState) (pa' : List PARow) (pid now : String)
    (la : List Achievement) (pa : List PARow) :
    checkLoop {db with playerAchievements := pa'} pid now la pa
      = checkLoop db pid now la pa := by
  induction la generalizing pa with
  | nil => rfl
  | cons b rest ih =>
    simp only [checkLoop, processAchievement_pa, ih]

theorem checkLoop_preserves_settled (db : GameState) (pid now : String)
    (la : List Achievement) (pa : List PARow) (a : Achievement)
    (h : Settled db pid pa a) :
    Settled db pid ((checkLoop db pid now la pa).1) a := by
  induction la generalizing pa with
  | nil => exact h
  | cons b rest ih =>
    simp only [checkLoop]
    exact ih _ (processAchievement_preserves_settled db pid now pa b a h)

/-- After one full pass of the loop, every achievement of the traversed
catalog is settled. -/
theorem checkLoop_settles_all (db : GameState) (pid now : String)
    (la : List Achievement) :
    ∀ (pa : List PARow) (a : Achievement), a ∈ la →
      Settled db pid ((checkLoop db pid now la pa).1) a := by
  induction la with
  | nil =>
    intro pa a h
    cases h
  | cons b rest ih =>
    intro pa a h
    rcases List.mem_cons.mp h with rfl | hmem
    · simp only [checkLoop]
      exact checkLoop_preserves_settled db pid now rest _ a
        (processAchievement_settles db pid now pa a)
    · simp only [checkLoop]
      exact ih _ a hmem

/-- A pass over an all-settled table writes nothing and reports nothing. -/
theorem checkLoop_of_settled (db : GameState) (pid now : String)
    (la : List Achievement) (pa : List PARow)
    (h : ∀ a ∈ la, Settled db pid pa a) :
    checkLoop db pid now la pa = (pa, []) := by
  induction la with
  | nil => rfl
  | cons b rest ih =>
    have hb := processAchievement_of_settled db pid now pa b (h b (List.mem_cons_self b rest))
    simp only [checkLoop, hb]
    rw [ih (fun a ha => h a (List.mem_cons_of_mem b ha))]

/-- C7: `checkAchievements` is idempotent — running it twice in a row with
no intervening state change makes the second run return an empty
newly-completed list and leave every stored `player_achievements` row (and
the whole database) unchanged, whatever completion timestamps the two runs
would use. -/
theorem checkAchievements_idempotent (pid now1 now2 : String) (db : GameState) :
    checkAchievements pid now2 ((checkAchievements pid now1 db).2)
      = ([], (checkAchievements pid now1 db).2) := by
  unfold checkAchievements
  rw [checkLoop_pa]
  rw [checkLoop_of_settled db pid now2 db.achievements _
    (fun a ha => checkLoop_settles_all db pid now1 db.achievements
      db.playerAchievements a ha)]
